import Mathlib

/-!
# Verification of the translation resolution and page-rendering pipeline

Shallow embedding of the multilingual crisis-documentation site's translation
core, translated from the repository's JavaScript sources:

* `src/js/translation-system.js` (version 1.4.0, the later-dated authoritative
  generation): the global `TranslationSystem` object — `getPathToRoot`,
  `getTranslation`, `deepMerge`, `loadAndMergeCommonTranslations`,
  `changeLanguage`, `updatePageLanguage`;
* `src/Pages/Historical_Massacres/event-documentation-translations.js`: the
  page-specific renderer — `getTranslatedContent`, `loadEventData`,
  `loadAndMergeCommonTranslations`, `overrideTranslationSystem` (the overridden
  `changeLanguage` / `updatePageLanguage`), `renderPage`,
  `setupLanguageChangeListener`, `updateRemainingTranslations`,
  `renderCasualties`;
* `src/footer-init.js`: `getPathToRoot` (basePath-aware variant).

JSON values are modelled by an inductive tree (`Json`): `null`, string leaves
and objects as association lists in insertion order.  Property access on
primitives returns "undefined" (`Option.none`) in the model: JavaScript
prototype artifacts (inherited properties such as `toString`, character
indices of strings) are not dictionary content and are not modelled; each
place where this abstraction matters is noted at the definition.  The page is
single-threaded and event dispatch is synchronous, so the stateful operations
are modelled as pure state transformers; `await`ed fetches are supplied as
explicit fetch-outcome parameters.
-/

/-- A JSON value as stored in a translation dictionary or dataset: `null`,
a string leaf, or an object whose fields are kept in insertion order
(JavaScript object key order for non-numeric keys). -/
inductive Json where
  | null : Json
  | str : String → Json
  | obj : List (String × Json) → Json

/-- Own-property read on an object's field list: the JavaScript `o[k]` /
`k in o` pair for own keys, returning `none` for "undefined". -/
def lookupKey : List (String × Json) → String → Option Json
  | [], _ => none
  | (k, v) :: rest, key => if k = key then some v else lookupKey rest key

/-- JavaScript property assignment `o[k] = v` on an object: updates the
existing entry in place, or appends a new key at the end (insertion order). -/
def setKey : List (String × Json) → String → Json → List (String × Json)
  | [], key, v => [(key, v)]
  | (k, w) :: rest, key, v =>
      if k = key then (key, v) :: rest else (k, w) :: setKey rest key v

/-- JavaScript truthiness of a modelled JSON value: `null` and the empty
string are falsy; every object (including `{}`) is truthy. -/
def jsTruthy : Json → Bool
  | Json.null => false
  | Json.str s => s ≠ ""
  | Json.obj _ => true

/-- Truthiness of a possibly-undefined value (`undefined` is falsy). -/
def jsTruthyOpt : Option Json → Bool
  | some v => jsTruthy v
  | none => false

/-- JavaScript property read `v[k]` restricted to dictionary content: own-key
lookup on an object, "undefined" otherwise.  This restriction omits host
artifacts (string own properties such as `length` and character indices,
inherited prototype members such as `toString`): the faithful host-aware read
is `jsReadFull` below, and the sentinel claim is settled against the full
reads.  The rendering claims use the restricted read at fixed renderer paths
(`casualties.breakdown.<i>.label` etc.), whose segment names cannot hit a
host property.  Reads on `null` are only performed by the sources behind
truthiness guards. -/
def jsIndex : Json → String → Option Json
  | Json.obj o, k => lookupKey o k
  | _, _ => none

/-- `String.prototype.split` with a single-character separator, on the
character list: `"a..b".split('.')` = `["a", "", "b"]`, `"".split('.')` =
`[""]`. -/
def splitOnChar (sep : Char) : List Char → List (List Char)
  | [] => [[]]
  | c :: cs =>
      if c = sep then [] :: splitOnChar sep cs
      else
        match splitOnChar sep cs with
        | [] => [[c]]
        | g :: gs => (c :: g) :: gs

/-- `path.split(sep)` for Lean strings (single-character separator, as used by
every call site: `split('.')` and `split('/')`). -/
def splitString (s : String) (sep : Char) : List String :=
  (splitOnChar sep s.data).map (fun cs => String.mk cs)

/-- Specification-side path finder, following the claim's wording: descend one
segment at a time, succeeding only when every intermediate node is a
traversable object containing the segment.  Used to state presence/absence of
a dot-path in a dictionary; it is *not* one of the program's functions. -/
def pathFind : List String → Json → Option Json
  | [], v => some v
  | k :: rest, Json.obj o =>
      match lookupKey o k with
      | some v => pathFind rest v
      | none => none
  | _ :: _, _ => none

/-! ## `TranslationSystem.getTranslation` (translation-system.js 516-540)

```js
getTranslation: function(key) {
    if (!this.translations || !this.translations[this.currentLanguage]) return null;
    const keys = key.split('.');
    let value = this.translations[this.currentLanguage];
    for (const k of keys) {
        if (value && typeof value === 'object' && k in value) value = value[k];
        else return null;
    }
    return value;
}
```
`typeof null === 'object'` is masked by the `value &&` truthiness guard, so the
walk descends only through objects.  The returned `null` sentinel and a stored
JSON `null` are indistinguishable to callers, so the model returns `Json`,
with `Json.null` as the sentinel. -/

/-- The `for (const k of keys)` walk of `getTranslation`: descend while the
current value is a truthy object containing the segment, else return `null`.
Like `jsIndex`, this restricts `k in value` to own keys (dictionary
content); the faithful walk that also sees inherited prototype members is
`jsWalkFull` below. -/
def jsWalk : List String → Json → Json
  | [], v => v
  | k :: rest, Json.obj o =>
      match lookupKey o k with
      | some v => jsWalk rest v
      | none => Json.null
  | _ :: _, _ => Json.null

/-- `TranslationSystem.getTranslation` of version 1.4.0, over the loaded
`translations` store and the active `currentLanguage`. -/
def getTranslation (translations : Json) (currentLanguage : String) (key : String) : Json :=
  if ¬ jsTruthy translations then Json.null
  else if ¬ jsTruthyOpt (jsIndex translations currentLanguage) then Json.null
  else
    match jsIndex translations currentLanguage with
    | some langDict => jsWalk (splitString key '.') langDict
    | none => Json.null

/-! ## `getTranslatedContent` (event-documentation-translations.js 129-147)

```js
function getTranslatedContent(path, defaultContent) {
    if (!translations || !currentLang || currentLang === 'en') return defaultContent;
    try {
        const pathParts = path.split('.');
        let result = translations[currentLang];
        for (const part of pathParts) {
            if (result === undefined || result === null) return defaultContent;
            result = result[part];
        }
        return result !== undefined && result !== null ? result : defaultContent;
    } catch (e) { return defaultContent; }
}
```
`result` may become `undefined` (modelled by `Option.none`); the loop indexes
strings as well, which yields "undefined" in the model (see `jsIndex`). -/

/-- The segment loop of `getTranslatedContent` together with its final
`result !== undefined && result !== null` check: `none` means the function
falls back to the caller's default. -/
def edWalk : Option Json → List String → Option Json
  | none, _ => none
  | some Json.null, [] => none
  | some v, [] => some v
  | some Json.null, _ :: _ => none
  | some v, k :: rest => edWalk (jsIndex v k) rest

/-- `getTranslatedContent(path, defaultContent)` of the event-documentation
page, over the page module's `translations` variable and `currentLang`. -/
def getTranslatedContent (translations : Json) (currentLang : String)
    (path : String) (defaultContent : Json) : Json :=
  if ¬ jsTruthy translations ∨ currentLang = "" ∨ currentLang = "en" then defaultContent
  else
    match edWalk (jsIndex translations currentLang) (splitString path '.') with
    | some v => v
    | none => defaultContent

/-! ## `TranslationSystem.deepMerge` (translation-system.js 282-294)

```js
deepMerge: function(target, source) {
    for (const key in source) {
        if (source.hasOwnProperty(key)) {
            if (source[key] instanceof Object && key in target && target[key] instanceof Object) {
                this.deepMerge(target[key], source[key]);
            } else {
                target[key] = source[key];
            }
        }
    }
    return target;
}
```
`instanceof Object` holds for plain objects and fails for string primitives
and `null`, so the recursion happens exactly when both sides are objects;
otherwise the source value replaces the target value outright. -/

/-- `deepMerge` over the field lists of `target` and `source`, iterating the
source's keys in insertion order. -/
def dmObj : List (String × Json) → List (String × Json) → List (String × Json)
  | target, [] => target
  | target, (k, sv) :: rest =>
      match sv, lookupKey target k with
      | Json.obj so, some (Json.obj tv) =>
          dmObj (setKey target k (Json.obj (dmObj tv so))) rest
      | _, _ => dmObj (setKey target k sv) rest
termination_by _t s => sizeOf s
decreasing_by
  all_goals simp_wf
  all_goals omega

/-! ## `TranslationSystem.loadAndMergeCommonTranslations` merge step
(translation-system.js 256-273)

After the common file for `lang` is fetched and parsed, its `common` object
(`commonData[lang].common` in the per-language-keyed shape, `commonData.common`
in the direct shape, `|| {}` when falsy) is combined with the already-loaded
page-specific store:

```js
if (!this.translations[lang].common) {
    this.translations[lang].common = commonData...common || {};
} else {
    this.deepMerge(this.translations[lang].common, commonData...common || {});
}
```
The model takes the incoming `common` object's field list directly (the common
files are JSON objects per the site's file layout; `|| {}` makes a falsy value
the empty object).  A truthy non-object existing `common` entry (a non-empty
string) is left unchanged: JavaScript property writes on a primitive are
silently ignored in non-strict mode. -/

/-- The merge step performed by `TranslationSystem.loadAndMergeCommonTranslations`
on the language dictionary `transLang` (= `this.translations[lang]`'s field
list) with the fetched common object's fields `commonCommon`. -/
def tsMergeCommon (transLang : List (String × Json))
    (commonCommon : List (String × Json)) : List (String × Json) :=
  match lookupKey transLang "common" with
  | some (Json.obj curO) => setKey transLang "common" (Json.obj (dmObj curO commonCommon))
  | some (Json.str s) =>
      if s = "" then setKey transLang "common" (Json.obj commonCommon) else transLang
  | some Json.null => setKey transLang "common" (Json.obj commonCommon)
  | none => setKey transLang "common" (Json.obj commonCommon)

/-! ## The event page's common-translation merge
(event-documentation-translations.js 69-126)

Per language, inside a `try` that catches any thrown error:

```js
if (!translations[lang]) { translations[lang] = {}; }
if (commonData.common) {
    translations[lang].common = { ...commonData.common, ...translations[lang].common };
}
for (const key in commonData) {
    if (key !== 'common' && commonData.hasOwnProperty(key)) {
        if (!translations[lang][key]) { translations[lang][key] = commonData[key]; }
    }
}
```
-/

/-- JavaScript object spread `{ ...fst, ...snd }`: the keys of `fst` in order
(with `snd`'s value where both define a key), then the keys only in `snd`. -/
def spreadMerge (fst snd : List (String × Json)) : List (String × Json) :=
  fst.map (fun kv =>
    match lookupKey snd kv.1 with
    | some v => (kv.1, v)
    | none => kv)
  ++ snd.filter (fun kv => (lookupKey fst kv.1).isNone)

/-- The field list an expression contributes when spread: an object's own
fields.  Spreading a string would contribute its character-index keys and
spreading `null`/`undefined` contributes nothing; only the object case arises
for the site's JSON files and the claims never touch the string corner, so
non-objects contribute no modelled keys. -/
def asObjList : Json → List (String × Json)
  | Json.obj o => o
  | _ => []

/-- The `for (const key in commonData)` fill loop: copy a root-level key other
than `common` from the fetched common data only when the page dictionary's
value at that key is falsy (`undefined`, `null`, `""`). -/
def fillMissing (langO : List (String × Json)) (cO : List (String × Json)) :
    List (String × Json) :=
  cO.foldl (fun acc kv =>
    if kv.1 = "common" then acc
    else if jsTruthyOpt (lookupKey acc kv.1) then acc
    else setKey acc kv.1 kv.2) langO

/-- One per-language merge of fetched common data into the page's
`translations` object (the `try` body above).  Non-object corners follow the
thrown-and-caught behaviour of the source: if `translations` itself is a
primitive or `null`, the first property access throws (or the write is
ignored) and the catch leaves it unchanged; if `translations[lang]` is a
truthy primitive after the ensure step, the writes are silently ignored; if
`commonData` is `null`, reading `commonData.common` throws after the ensure
step already ran; a string `commonData` has an undefined (falsy) `.common`
and its for-in loop walks character indices, which contribute no modelled
keys. -/
def mergeLangTry (tr : Json) (lang : String) (commonData : Json) : Json :=
  match tr with
  | Json.obj o =>
      let o1 := if jsTruthyOpt (lookupKey o lang) then o else setKey o lang (Json.obj [])
      match lookupKey o1 lang with
      | some (Json.obj langO) =>
          match commonData with
          | Json.obj cO =>
              let langO1 :=
                match lookupKey cO "common" with
                | some c =>
                    if jsTruthy c then
                      let pcList :=
                        match lookupKey langO "common" with
                        | some (Json.obj pc) => pc
                        | _ => []
                      setKey langO "common" (Json.obj (spreadMerge (asObjList c) pcList))
                    else langO
                | none => langO
              Json.obj (setKey o1 lang (Json.obj (fillMissing langO1 cO)))
          | _ => Json.obj o1
      | _ => Json.obj o1
  | _ => tr

/-- Outcome of one `fetch` + `response.json()` round trip: a network error
(the `fetch` promise rejects), a non-success HTTP status (`!response.ok`),
malformed content (`response.json()` rejects), or a parsed body. -/
inductive FetchResult where
  | networkError : FetchResult
  | httpError : Nat → FetchResult
  | malformed : FetchResult
  | ok : Json → FetchResult

/-- Whether a fetch outcome is one of the claim's failure modes. -/
def FetchResult.isFailure : FetchResult → Bool
  | FetchResult.ok _ => false
  | _ => true

/-- One iteration of the event page's per-language loop: `continue` on a
non-ok status, and the catch swallows network errors and parse errors,
leaving the page dictionary unchanged. -/
def mergeLangStep (tr : Json) (lang : String) (res : FetchResult) : Json :=
  match res with
  | FetchResult.ok commonData => mergeLangTry tr lang commonData
  | _ => tr

/-- The languages whose common files the event page loads
(`const languages = ['en', 'ar', 'de']`). -/
def langCodes : List String := ["en", "ar", "de"]

/-- The whole loop of the event page's `loadAndMergeCommonTranslations`,
with the per-language fetch outcomes supplied by `env`. -/
def mergeAllCommon (tr : Json) (env : String → FetchResult) (ls : List String) : Json :=
  ls.foldl (fun t l => mergeLangStep t l (env l)) tr

/-! ## The supported-language table (translation-system.js 25-44) -/

/-- An entry of `TranslationSystem.languages`. -/
structure LangInfo where
  name : String
  nativeName : String
  dir : String
  dateFormat : String

/-- `TranslationSystem.languages`: the fixed supported set; `none` plays the
role of `undefined` for an unsupported code. -/
def languages : String → Option LangInfo := fun code =>
  if code = "en" then some ⟨"English", "English", "ltr", "MM/DD/YYYY"⟩
  else if code = "ar" then some ⟨"Arabic", "العربية", "rtl", "DD/MM/YYYY"⟩
  else if code = "de" then some ⟨"German", "Deutsch", "ltr", "DD.MM.YYYY"⟩
  else none

/-! ## `getPathToRoot` (translation-system.js 128-140)

```js
const path = window.location.pathname;
const parts = path.split('/').filter(p => p.length > 0);
const dirDepth = path.endsWith('.html') ? parts.length - 1 : parts.length;
if (dirDepth <= 0) return './';
return Array(dirDepth).fill('..').join('/') + '/';
```
JavaScript's `parts.length - 1` can be `-1` (for a path with no nonempty
segments ending in `.html`); both `-1` and `0` take the `'./'` branch, which
truncated subtraction on `Nat` reproduces. -/

/-- `Array.prototype.join(sep)`: empty array gives `""`. -/
def joinSep (sep : String) : List String → String
  | [] => ""
  | [x] => x
  | x :: y :: rest => x ++ sep ++ joinSep sep (y :: rest)

/-- `TranslationSystem.getPathToRoot`, as a function of
`window.location.pathname`. -/
def getPathToRoot (path : String) : String :=
  let parts := (splitString path '/').filter (fun p => decide (0 < p.length))
  let dirDepth := if List.isSuffixOf ".html".data path.data then parts.length - 1
                  else parts.length
  if dirDepth = 0 then "./"
  else joinSep "/" (List.replicate dirDepth "..") ++ "/"

/-! ## `getPathToRoot` of the universal footer (footer-init.js 36-57)

Same computation, but it first strips the configured base path when the site
is served from a repository subdirectory:

```js
let relativePath = currentPath;
if (basePath !== '/' && currentPath.startsWith(basePath)) {
    relativePath = currentPath.substring(basePath.length);
}
```
(`substring` counts UTF-16 units; the paths involved are ASCII, where this
coincides with characters.) -/

/-- The footer initializer's `getPathToRoot`, as a function of the detected
base path and `window.location.pathname`. -/
def footerGetPathToRoot (basePath path : String) : String :=
  let rel :=
    if basePath ≠ "/" ∧ List.isPrefixOf basePath.data path.data then
      String.mk (path.data.drop basePath.data.length)
    else path
  let parts := (splitString rel '/').filter (fun p => decide (0 < p.length))
  let dirDepth := if List.isSuffixOf ".html".data rel.data then parts.length - 1
                  else parts.length
  if dirDepth = 0 then "./"
  else joinSep "/" (List.replicate dirDepth "..") ++ "/"

/-! ## State of the generic translation system (translation-system.js)

The browser page is single-threaded; the object's fields, the persisted
preference and the tracked document attributes form the state.  The counters
(`fetchCount`, `updateCount`, `dispatchCount`) instrument how often the
loader, the page updater and the `languageChanged` dispatch run; they are
harness bookkeeping, not program variables. -/

structure TsState where
  currentLanguage : String
  translations : Json
  skipAutoLoad : Bool
  storedLang : Option String
  docLang : String
  docDir : String
  bodyRtl : Bool
  domI18nContent : List (String × Json)
  fetchCount : Nat
  updateCount : Nat
  dispatchCount : Nat

/-- The `data-i18n` pass of the original `updatePageLanguage` (421-425 with
`translateElement`, 474-513): each tagged element's content is replaced by
`getTranslation(key)` when that value is truthy, else kept.  The
`.no-translate` splice-back machinery preserves marked child markup inside
the replaced content and is below the granularity of this model. -/
def applyI18n (translations : Json) (lang : String)
    (dom : List (String × Json)) : List (String × Json) :=
  dom.map (fun kc =>
    let t := getTranslation translations lang kc.1
    if jsTruthy t then (kc.1, t) else kc)

/-- The original `TranslationSystem.updatePageLanguage` (398-471): early
return under `skipAutoLoad`; otherwise set the document's `lang`/`dir`
attributes and the body's `rtl` class from the language table, then apply
translations to tagged elements.  The source reads
`this.languages[this.currentLanguage].dir` without a fallback — with an
unsupported active language JavaScript would throw; the base system validates
every language change, so that branch is unreachable and the model leaves the
state unchanged there.  (The placeholder/title/meta-description updates
follow the same `getTranslation`-guarded pattern and are not tracked.) -/
def tsUpdatePageLanguage (s : TsState) : TsState :=
  let s := { s with updateCount := s.updateCount + 1 }
  if s.skipAutoLoad then s
  else
    match languages s.currentLanguage with
    | some info =>
        { s with
          docLang := s.currentLanguage
          docDir := info.dir
          bodyRtl := info.dir = "rtl"
          domI18nContent := applyI18n s.translations s.currentLanguage s.domI18nContent }
    | none => s

/-! ## `TranslationSystem.changeLanguage` (translation-system.js 296-344)

```js
changeLanguage: async function(lang) {
    if (!this.languages[lang]) { return false; }
    if (this.currentLanguage === lang) { return true; }
    let success = true;
    if (!this.config.skipAutoLoad && (!this.translations || !this.translations[lang])) {
        success = await this.loadTranslations(lang);
    }
    if (success || this.config.skipAutoLoad) {
        this.currentLanguage = lang;
        localStorage.setItem('gaza-docs-lang', lang);
        this.updatePageLanguage();
        this.updateLanguageSelectorUI();
        document.dispatchEvent(new CustomEvent('languageChanged', {...}));
        return true;
    }
    return false;
}
```
`loadTranslations` performs the network round trips; it is supplied as an
explicit `loader` parameter (its result state carries the fetched store and
incremented `fetchCount`), so the theorems about the validation and
idempotence guards hold for every loader behaviour.
`updateLanguageSelectorUI` only toggles CSS classes on the selector buttons
and is untracked. -/

def tsChangeLanguage (loader : TsState → String → TsState × Bool)
    (s : TsState) (lang : String) : TsState × Bool :=
  if (languages lang).isNone then (s, false)
  else if s.currentLanguage = lang then (s, true)
  else
    let p :=
      if ¬ s.skipAutoLoad ∧
          (¬ jsTruthy s.translations ∨ ¬ jsTruthyOpt (jsIndex s.translations lang)) then
        loader s lang
      else (s, true)
    if p.2 ∨ p.1.skipAutoLoad then
      let s2 := { p.1 with currentLanguage := lang, storedLang := some lang }
      let s3 := tsUpdatePageLanguage s2
      ({ s3 with dispatchCount := s3.dispatchCount + 1 }, true)
    else (p.1, false)

/-! ## State of the event-documentation page
(event-documentation-translations.js)

The page keeps its own module variables (`eventData`, `translations`,
`currentLang`) next to the global `TranslationSystem` whose
`updatePageLanguage`/`changeLanguage` it overrides during initialization
(`setupLanguageChangeListener` and `overrideTranslationSystem` both run in
the `DOMContentLoaded` handler before `loadEventData`, so the
`languageChanged` listener is registered and the overridden methods are in
place).  `renderCount`/`updaterCount`/`fetchCount`/`dispatchCount` instrument
how often `renderPage`, the (overridden) `updatePageLanguage`, a fetch and
the `languageChanged` dispatch run; they are harness bookkeeping. -/

structure DocState where
  currentLang : String
  tsCurrentLanguage : String
  storedLang : Option String
  translations : Json
  tsTranslations : Json
  eventData : Option Json
  docLang : String
  docDir : String
  bodyRtl : Bool
  domI18nContent : List (String × Json)
  renderCount : Nat
  updaterCount : Nat
  fetchCount : Nat
  dispatchCount : Nat

/-! ## The overridden `updatePageLanguage`
(event-documentation-translations.js 175-188)

```js
window.TranslationSystem.updatePageLanguage = function() {
    document.documentElement.lang = currentLang;
    document.documentElement.dir = window.TranslationSystem.languages[currentLang]?.dir || 'ltr';
    if (window.TranslationSystem.languages[currentLang]?.dir === 'rtl') {
        document.body.classList.add('rtl');
    } else {
        document.body.classList.remove('rtl');
    }
};
```
-/

def overriddenUpdatePageLanguage (s : DocState) : DocState :=
  let dir := match languages s.currentLang with
             | some info => info.dir
             | none => "ltr"
  { s with
    updaterCount := s.updaterCount + 1
    docLang := s.currentLang
    docDir := dir
    bodyRtl := dir = "rtl" }

/-! ## `updateRemainingTranslations`
(event-documentation-translations.js 254-284)

For each `data-i18n` element, walk the key through the page dictionary,
breaking out when the node is falsy or not an object, and replace the
element's text only with a truthy string result. -/

/-- The per-element walk: `for (const part of parts) { if (!value || typeof
value !== 'object') break; value = value[part]; }`. -/
def urtWalk : Option Json → List String → Option Json
  | v, [] => v
  | some v, k :: rest =>
      if jsTruthy v ∧ (v matches Json.obj _) then urtWalk (jsIndex v k) rest
      else some v
  | none, _ :: _ => none

def updateRemainingTranslations (s : DocState) : DocState :=
  if ¬ jsTruthy s.translations then s
  else if ¬ jsTruthyOpt (jsIndex s.translations s.currentLang) then s
  else
    { s with
      domI18nContent := s.domI18nContent.map (fun kc =>
        if kc.1 = "" then kc
        else
          match urtWalk (jsIndex s.translations s.currentLang) (splitString kc.1 '.') with
          | some (Json.str t) => if t ≠ "" then (kc.1, Json.str t) else kc
          | _ => kc) }

/-! ## `renderPage` (event-documentation-translations.js 223-251)

Rebuilds every section's markup from `eventData` through
`getTranslatedContent` (the per-field content equalities are proved
separately on `renderCasualtiesEntry` below), sets the document direction
from `currentLang === 'ar'`, deliberately does *not* call
`updatePageLanguage` (the "IMPORTANT FIX" comment), and finishes with
`updateRemainingTranslations`.  Tracked effects: one render pass, the
direction attribute, and the `data-i18n` text updates. -/

def renderPage (s : DocState) : DocState :=
  let s := { s with
    renderCount := s.renderCount + 1
    docDir := if s.currentLang = "ar" then "rtl" else "ltr" }
  updateRemainingTranslations s

/-! ## The `languageChanged` listener
(event-documentation-translations.js 150-162)

```js
document.addEventListener('languageChanged', function(e) {
    currentLang = e.detail.language;
    if (eventData) { renderPage(eventData); }
});
```
-/

def languageChangedListener (s : DocState) (lang : String) : DocState :=
  let s := { s with currentLang := lang }
  match s.eventData with
  | some _ => renderPage s
  | none => s

/-! ## The overridden `changeLanguage`
(event-documentation-translations.js 194-218)

```js
window.TranslationSystem.changeLanguage = async function(lang) {
    currentLang = lang;
    window.TranslationSystem.currentLanguage = lang;
    localStorage.setItem('gaza-docs-lang', lang);
    window.TranslationSystem.updateLanguageSelectorUI();
    window.TranslationSystem.updatePageLanguage();
    if (eventData) { renderPage(eventData); }
    document.dispatchEvent(new CustomEvent('languageChanged', {...}));
    return true;
};
```
There is no supported-language validation, no same-language guard and no
dictionary load.  `dispatchEvent` runs the page's own `languageChanged`
listener synchronously before returning.  (`main.js` also listens for
`languageChanged`, but it belongs to the site's index page and is not loaded
on an event-documentation page.) -/

def overriddenChangeLanguage (s : DocState) (lang : String) : DocState × Bool :=
  let s := { s with currentLang := lang, tsCurrentLanguage := lang, storedLang := some lang }
  let s := overriddenUpdatePageLanguage s
  let s := match s.eventData with
           | some _ => renderPage s
           | none => s
  let s := { s with dispatchCount := s.dispatchCount + 1 }
  let s := languageChangedListener s lang
  (s, true)

/-! ## `loadEventData` (event-documentation-translations.js 14-66)

Fetch the page's dataset (required: on failure the catch logs and the page is
not rendered), then the page-specific translation file (any failure — thrown
fetch, non-ok status, thrown parse — substitutes `translations = {}`), then
the three common files through the merge loop (which also publishes the
result to `TranslationSystem.translations`), take the active language from
`TranslationSystem.currentLanguage || 'en'`, and render. -/

def loadEventData (mainRes transRes : FetchResult) (commonRes : String → FetchResult)
    (s : DocState) : DocState :=
  let s := { s with fetchCount := s.fetchCount + 1 }
  match mainRes with
  | FetchResult.ok dat =>
      let s := { s with eventData := some dat, fetchCount := s.fetchCount + 1 }
      let tr0 := match transRes with
                 | FetchResult.ok t => t
                 | _ => Json.obj []
      let trFinal := mergeAllCommon tr0 commonRes langCodes
      let s := { s with
        fetchCount := s.fetchCount + langCodes.length
        translations := trFinal
        tsTranslations := trFinal }
      let s := { s with
        currentLang := if s.tsCurrentLanguage ≠ "" then s.tsCurrentLanguage else "en" }
      renderPage s
  | _ => s

/-! ## `renderCasualties` field resolution
(event-documentation-translations.js 509-541)

For the breakdown item at index `index`:

```js
const translatedLabel = getTranslatedContent(`casualties.breakdown.${index}.label`, item.label);
const translatedDetail = getTranslatedContent(`casualties.breakdown.${index}.detail`, item.detail);
```
(`item.number` and `item.type` are rendered untranslated.)  A missing dataset
field would pass `undefined` as the default; the dataset items carry both
fields, and the model forwards the dataset value as a `Json` (with
`Json.null` for an absent field, which the template would interpolate the
same way it interpolates `undefined`). -/

/-- Dataset field read `item.f` with `Json.null` for an absent field. -/
def jsField (item : Json) (f : String) : Json :=
  match jsIndex item f with
  | some v => v
  | none => Json.null

def casualtiesLabelPath (i : Nat) : String :=
  "casualties.breakdown." ++ toString i ++ ".label"

def casualtiesDetailPath (i : Nat) : String :=
  "casualties.breakdown." ++ toString i ++ ".detail"

/-- The translated (label, detail) pair rendered for breakdown item `item`
at index `i`. -/
def renderCasualtiesEntry (tr : Json) (lang : String) (i : Nat) (item : Json) :
    Json × Json :=
  (getTranslatedContent tr lang (casualtiesLabelPath i) (jsField item "label"),
   getTranslatedContent tr lang (casualtiesDetailPath i) (jsField item "detail"))

/-- The dictionary JavaScript reads the resolution path against:
`translations[currentLang]`, with `null` standing for "undefined" (both are
non-traversable and falsy). -/
def langDictOf (translations : Json) (lang : String) : Json :=
  match jsIndex translations lang with
  | some d => d
  | none => Json.null

/-! ## The full, host-aware property-read model

The restricted read `jsIndex` above sees only dictionary content.  Real
JavaScript property access also yields host values: a string has the own
property `length` and single-character own properties at its canonical
numeric indices, and every object, string, number and function inherits the
members of its prototype chain (`toString`, `hasOwnProperty`, `split`, ...).
`getTranslatedContent`'s loop indexes whatever node it reaches, so the
resolution really can return such values; the sentinel claim is settled
against this full model. -/

/-- A root-relative page path `"/" + dirs.join("/") + "/" + file` at the
character level: the join of the directory segments and the trailing
filename. -/
def joinSegs : List (List Char) → List Char
  | [] => []
  | [s] => s
  | s :: t :: rest => s ++ '/' :: joinSegs (t :: rest)

def joinPath (dirs : List (List Char)) (file : List Char) : List Char :=
  '/' :: joinSegs (dirs ++ [file])

/-- `n` copies of `"../"`. -/
def upSegs : Nat → String
  | 0 => ""
  | n + 1 => "../" ++ upSegs n

/-- The event page right after initialization: listeners registered, methods
overridden, dataset loaded, English active, all instrumentation counters at
zero. -/
def eventPageInit : DocState :=
  { currentLang := "en", tsCurrentLanguage := "en", storedLang := some "en",
    translations := Json.obj [], tsTranslations := Json.obj [],
    eventData := some (Json.obj []), docLang := "en", docDir := "ltr",
    bodyRtl := false, domI18nContent := [], renderCount := 0, updaterCount := 0,
    fetchCount := 0, dispatchCount := 0 }

/-- A generic page's translation system with English active and loaded. -/
def tsStateInit : TsState :=
  { currentLanguage := "en", translations := Json.obj [("en", Json.obj [])],
    skipAutoLoad := false, storedLang := some "en", docLang := "en",
    docDir := "ltr", bodyRtl := false, domI18nContent := [],
    fetchCount := 0, updateCount := 0, dispatchCount := 0 }

/-- A loaded page-specific store with an Arabic label translation for
breakdown item 0 and no detail translation. -/
def demoStore : Json :=
  Json.obj [("ar", Json.obj [("casualties", Json.obj [("breakdown",
    Json.obj [("0", Json.obj [("label", Json.str "أطفال")])])])])]

/-- A dataset breakdown item carrying its default-language field values. -/
def demoItem : Json :=
  Json.obj [("label", Json.str "Children"), ("detail", Json.str "Mostly under ten")]

/-- A store whose Arabic label translation for breakdown item 0 is the empty
string. -/
def emptyLabelStore : Json :=
  Json.obj [("ar", Json.obj [("casualties", Json.obj [("breakdown",
    Json.obj [("0", Json.obj [("label", Json.str "")])])])])]

/-! ## Truthiness evaluation lemmas -/

@[simp] theorem jsTruthy_null : jsTruthy Json.null = false := rfl

@[simp] theorem jsTruthy_obj (o : List (String × Json)) :
    jsTruthy (Json.obj o) = true := rfl

@[simp] theorem jsTruthyOpt_some (v : Json) : jsTruthyOpt (some v) = jsTruthy v := rfl

@[simp] theorem jsTruthyOpt_none : jsTruthyOpt none = false := rfl

/-! ## Association-list and walk lemmas -/

theorem lookupKey_setKey_self (l : List (String × Json)) (k : String) (v : Json) :
    lookupKey (setKey l k v) k = some v := by
  induction l with
  | nil => simp [setKey, lookupKey]
  | cons kv t ih =>
      by_cases hk : kv.1 = k
      · simp [setKey, hk, lookupKey]
      · simp [setKey, hk, lookupKey, ih]

theorem lookupKey_setKey_ne (l : List (String × Json)) (k k' : String) (v : Json)
    (h : k' ≠ k) : lookupKey (setKey l k v) k' = lookupKey l k' := by
  have h' : ¬ (k = k') := fun hh => h hh.symm
  induction l with
  | nil => simp [setKey, lookupKey, h']
  | cons kv t ih =>
      by_cases hk : kv.1 = k
      · simp [setKey, hk, lookupKey, h']
      · by_cases hk' : kv.1 = k'
        · simp [setKey, hk, lookupKey, hk', h]
        · simp [setKey, hk, lookupKey, hk', ih]

theorem lookupKey_append (a b : List (String × Json)) (k : String) :
    lookupKey (a ++ b) k =
      match lookupKey a k with
      | some v => some v
      | none => lookupKey b k := by
  induction a with
  | nil => simp [lookupKey]
  | cons kv t ih =>
      by_cases hk : kv.1 = k
      · simp [lookupKey, hk]
      · simp [lookupKey, hk, ih]

theorem lookupKey_spread_map (fst snd : List (String × Json)) (k : String) :
    lookupKey (fst.map (fun kv =>
        match lookupKey snd kv.1 with
        | some v => (kv.1, v)
        | none => kv)) k =
      match lookupKey fst k with
      | some v0 => some (match lookupKey snd k with
                         | some v => v
                         | none => v0)
      | none => none := by
  induction fst with
  | nil => simp [lookupKey]
  | cons kv t ih =>
      by_cases hk : kv.1 = k
      · subst hk
        cases hsnd : lookupKey snd kv.1 <;> simp [lookupKey, hsnd]
      · cases hsnd : lookupKey snd kv.1 <;> simp [lookupKey, hsnd, hk, ih]

theorem lookupKey_filter_keep (fst snd : List (String × Json)) (k : String)
    (h : lookupKey fst k = none) :
    lookupKey (snd.filter (fun kv => (lookupKey fst kv.1).isNone)) k =
      lookupKey snd k := by
  induction snd with
  | nil => simp
  | cons kv t ih =>
      by_cases hk : kv.1 = k
      · subst hk
        simp [List.filter_cons, h, lookupKey]
      · cases hp : (lookupKey fst kv.1).isNone <;>
          simp [List.filter_cons, hp, lookupKey, hk, ih]

/-- Lookup after a JavaScript spread `{ ...fst, ...snd }`: a key of `snd`
always reads back its `snd` value; a key only in `fst` keeps its value. -/
theorem lookupKey_spreadMerge (fst snd : List (String × Json)) (k : String) :
    lookupKey (spreadMerge fst snd) k =
      match lookupKey fst k with
      | some v0 => some (match lookupKey snd k with
                         | some v => v
                         | none => v0)
      | none => lookupKey snd k := by
  unfold spreadMerge
  rw [lookupKey_append, lookupKey_spread_map]
  cases hf : lookupKey fst k
  · simp [lookupKey_filter_keep fst snd k hf]
  · simp

theorem lookupKey_spreadMerge_of_snd (fst snd : List (String × Json)) (k : String)
    (v : Json) (h : lookupKey snd k = some v) :
    lookupKey (spreadMerge fst snd) k = some v := by
  rw [lookupKey_spreadMerge]
  cases hf : lookupKey fst k <;> simp [h]

/-- The fill loop never writes the `common` key. -/
theorem fillMissing_lookup_common (cO : List (String × Json))
    (langO : List (String × Json)) :
    lookupKey (fillMissing langO cO) "common" = lookupKey langO "common" := by
  induction cO generalizing langO with
  | nil => rfl
  | cons kv t ih =>
      show lookupKey (fillMissing _ t) "common" = _
      rw [ih]
      by_cases hc : kv.1 = "common"
      · simp [hc]
      · by_cases ht : jsTruthyOpt (lookupKey langO kv.1) = true
        · simp [hc, ht]
        · simp [hc, ht, lookupKey_setKey_ne _ _ _ _ (fun hh => hc hh.symm)]

theorem splitOnChar_ne_nil (sep : Char) (l : List Char) : splitOnChar sep l ≠ [] := by
  cases l with
  | nil => simp [splitOnChar]
  | cons c cs =>
      by_cases hc : c = sep
      · simp [splitOnChar, hc]
      · cases hs : splitOnChar sep cs <;> simp [splitOnChar, hc, hs]

theorem splitString_ne_nil (s : String) (sep : Char) : splitString s sep ≠ [] := by
  unfold splitString
  intro h
  exact splitOnChar_ne_nil sep s.data (List.map_eq_nil_iff.mp h)

theorem edWalk_none (p : List String) : edWalk none p = none := by
  cases p <;> rfl

theorem pathFind_none_jsWalk (p : List String) (v : Json)
    (h : pathFind p v = none) : jsWalk p v = Json.null := by
  induction p generalizing v with
  | nil => simp [pathFind] at h
  | cons k rest ih =>
      cases v with
      | null => rfl
      | str s => rfl
      | obj o =>
          cases hl : lookupKey o k with
          | none => simp [jsWalk, hl]
          | some u =>
              simp only [pathFind, hl] at h
              simp [jsWalk, hl, ih u h]

theorem pathFind_none_edWalk (p : List String) (v : Json)
    (h : pathFind p v = none) : edWalk (some v) p = none := by
  induction p generalizing v with
  | nil => simp [pathFind] at h
  | cons k rest ih =>
      cases v with
      | null => rfl
      | str s => simp [edWalk, jsIndex, edWalk_none]
      | obj o =>
          cases hl : lookupKey o k with
          | none => simp [edWalk, jsIndex, hl, edWalk_none]
          | some u =>
              simp only [pathFind, hl] at h
              simp [edWalk, jsIndex, hl, ih u h]

theorem pathFind_some_edWalk (p : List String) (v w : Json)
    (h : pathFind p v = some w) (hw : w ≠ Json.null) : edWalk (some v) p = some w := by
  induction p generalizing v with
  | nil =>
      simp only [pathFind, Option.some.injEq] at h
      subst h
      cases v with
      | null => exact absurd rfl hw
      | str s => rfl
      | obj o => rfl
  | cons k rest ih =>
      cases v with
      | null => simp [pathFind] at h
      | str s => simp [pathFind] at h
      | obj o =>
          cases hl : lookupKey o k with
          | none => simp [pathFind, hl] at h
          | some u =>
              simp only [pathFind, hl] at h
              simp [edWalk, jsIndex, hl, ih u h]

/-! ## Characterizations of the two resolution operations -/

/-- `getTranslation` returns the `null` sentinel whenever the dot-path is
absent from the active language's dictionary. -/
theorem getTranslation_absent (tr : Json) (lang key : String)
    (h : pathFind (splitString key '.') (langDictOf tr lang) = none) :
    getTranslation tr lang key = Json.null := by
  unfold getTranslation
  by_cases h1 : jsTruthy tr = true
  · by_cases h2 : jsTruthyOpt (jsIndex tr lang) = true
    · cases hj : jsIndex tr lang with
      | none => rw [hj] at h2; simp [jsTruthyOpt] at h2
      | some d =>
          unfold langDictOf at h
          rw [hj] at h
          simp [h1, h2, hj, pathFind_none_jsWalk _ _ h]
    · simp [h1, h2]
  · simp [h1]

/-- `getTranslatedContent` returns the caller's default whenever the dot-path
is absent from the active language's dictionary. -/
theorem getTranslatedContent_absent (tr : Json) (lang p : String) (d : Json)
    (h : pathFind (splitString p '.') (langDictOf tr lang) = none) :
    getTranslatedContent tr lang p d = d := by
  unfold getTranslatedContent
  by_cases hg : (¬ jsTruthy tr = true ∨ lang = "" ∨ lang = "en")
  · rw [if_pos hg]
  · cases hj : jsIndex tr lang with
    | none => simp [hg, hj, edWalk_none]
    | some v =>
        unfold langDictOf at h
        rw [hj] at h
        simp [hg, hj, pathFind_none_edWalk _ _ h]

/-- When the path is present with a non-`null` value and the early-return
guard does not fire, `getTranslatedContent` returns the stored value — even
the empty string. -/
theorem getTranslatedContent_present (tr : Json) (lang p : String) (d w : Json)
    (h1 : jsTruthy tr = true) (h2 : lang ≠ "") (h3 : lang ≠ "en")
    (h4 : pathFind (splitString p '.') (langDictOf tr lang) = some w)
    (h5 : w ≠ Json.null) :
    getTranslatedContent tr lang p d = w := by
  unfold getTranslatedContent
  cases hj : jsIndex tr lang with
  | none =>
      unfold langDictOf at h4
      rw [hj] at h4
      cases hs : splitString p '.' with
      | nil => exact absurd hs (splitString_ne_nil p '.')
      | cons a l => rw [hs] at h4; simp [pathFind] at h4
  | some v =>
      unfold langDictOf at h4
      rw [hj] at h4
      simp [h1, h2, h3, hj, pathFind_some_edWalk _ _ _ h4 h5]

/-- An empty store resolves every path to the caller's default under every
language. -/
theorem getTranslatedContent_empty (lang p : String) (d : Json) :
    getTranslatedContent (Json.obj []) lang p d = d := by
  by_cases hg : (lang = "" ∨ lang = "en")
  · unfold getTranslatedContent
    rcases hg with hg | hg <;> simp [hg]
  · exact getTranslatedContent_absent _ _ _ _ (by
      unfold langDictOf
      cases hs : splitString p '.' with
      | nil => exact absurd hs (splitString_ne_nil p '.')
      | cons a l => simp [jsIndex, lookupKey, pathFind])

/-! ## Lemmas about the full, host-aware reads -/

/-- One per-language merge of common data never changes a value the page
dictionary already holds below `<lang>.common`: the spread puts the
page-specific fields second, and the fill loop skips the `common` key. -/
theorem pathFind_mergeLangTry (tr : Json) (lang' : String) (cd : Json)
    (lang k : String) (rest : List String) (w : Json)
    (h : pathFind (lang :: "common" :: k :: rest) tr = some w) :
    pathFind (lang :: "common" :: k :: rest) (mergeLangTry tr lang' cd) = some w := by
  cases tr with
  | null => simp [pathFind] at h
  | str s => simp [pathFind] at h
  | obj o =>
      cases hl : lookupKey o lang with
      | none => simp [pathFind, hl] at h
      | some v1 =>
          simp only [pathFind, hl] at h
          cases v1 with
          | null => simp [pathFind] at h
          | str s => simp [pathFind] at h
          | obj langO =>
              cases hc : lookupKey langO "common" with
              | none => simp [pathFind, hc] at h
              | some c =>
                  simp only [pathFind, hc] at h
                  cases c with
                  | null => simp [pathFind] at h
                  | str s => simp [pathFind] at h
                  | obj pc =>
                      cases hk : lookupKey pc k with
                      | none => simp [pathFind, hk] at h
                      | some u =>
                          simp only [pathFind, hk] at h
                          by_cases hll : lang' = lang
                          · subst hll
                            cases cd with
                            | null =>
                                simp [mergeLangTry, hl, pathFind, hc, hk, h]
                            | str s =>
                                simp [mergeLangTry, hl, pathFind, hc, hk, h]
                            | obj cO =>
                                cases hcc : lookupKey cO "common" with
                                | none =>
                                    simp [mergeLangTry, hl, hcc, pathFind,
                                      lookupKey_setKey_self,
                                      fillMissing_lookup_common, hc, hk, h]
                                | some cv =>
                                    by_cases hct : jsTruthy cv = true
                                    · have hs := lookupKey_spreadMerge_of_snd
                                        (asObjList cv) pc k u hk
                                      simp [mergeLangTry, hl, hcc, hct, hc,
                                        pathFind, lookupKey_setKey_self,
                                        fillMissing_lookup_common, hs, h]
                                    · simp [mergeLangTry, hl, hcc, hct,
                                        pathFind, lookupKey_setKey_self,
                                        fillMissing_lookup_common, hc, hk, h]
                          · -- merging a different language never touches this one
                            have hne : lang ≠ lang' := fun hh => hll hh.symm
                            by_cases he : jsTruthyOpt (lookupKey o lang') = true
                            · cases hl' : lookupKey o lang' with
                              | none => rw [hl'] at he; simp at he
                              | some v' =>
                                  cases v' with
                                  | null => rw [hl'] at he; simp at he
                                  | str s =>
                                      rw [hl'] at he
                                      have he2 : jsTruthy (Json.str s) = true := he
                                      simp [mergeLangTry, hl', he2, pathFind, hl, hc, hk, h]
                                  | obj langO' =>
                                      cases cd with
                                      | null =>
                                          simp [mergeLangTry, hl', pathFind, hl, hc, hk, h]
                                      | str s =>
                                          simp [mergeLangTry, hl', pathFind, hl, hc, hk, h]
                                      | obj cO =>
                                          simp [mergeLangTry, hl', pathFind,
                                            lookupKey_setKey_ne _ _ _ _ hne, hl, hc, hk, h]
                            · cases cd with
                              | null =>
                                  simp [mergeLangTry, he, pathFind, lookupKey_setKey_self,
                                    lookupKey_setKey_ne _ _ _ _ hne, hl, hc, hk, h]
                              | str s =>
                                  simp [mergeLangTry, he, pathFind, lookupKey_setKey_self,
                                    lookupKey_setKey_ne _ _ _ _ hne, hl, hc, hk, h]
                              | obj cO =>
                                  simp [mergeLangTry, he, pathFind, lookupKey_setKey_self,
                                    lookupKey_setKey_ne _ _ _ _ hne, hl, hc, hk, h]

/-- Retention through the whole per-language loop, for any fetch outcomes. -/
theorem pathFind_mergeAllCommon (env : String → FetchResult) (ls : List String)
    (tr : Json) (lang k : String) (rest : List String) (w : Json)
    (h : pathFind (lang :: "common" :: k :: rest) tr = some w) :
    pathFind (lang :: "common" :: k :: rest) (mergeAllCommon tr env ls) = some w := by
  induction ls generalizing tr with
  | nil => exact h
  | cons l t ih =>
      show pathFind _ (mergeAllCommon (mergeLangStep tr l (env l)) env t) = some w
      apply ih
      cases henv : env l with
      | ok cd => exact pathFind_mergeLangTry tr l cd lang k rest w h
      | networkError => exact h
      | httpError n => exact h
      | malformed => exact h

/-- When every common fetch fails, the loop leaves the dictionary unchanged. -/
theorem mergeAllCommon_failures (env : String → FetchResult) (ls : List String)
    (tr : Json) (hf : ∀ l, (env l).isFailure = true) :
    mergeAllCommon tr env ls = tr := by
  induction ls generalizing tr with
  | nil => rfl
  | cons l t ih =>
      show mergeAllCommon (mergeLangStep tr l (env l)) env t = tr
      cases henv : env l with
      | ok cd => have := hf l; rw [henv] at this; simp [FetchResult.isFailure] at this
      | networkError => simp only [mergeLangStep]; exact ih tr
      | httpError n => simp only [mergeLangStep]; exact ih tr
      | malformed => simp only [mergeLangStep]; exact ih tr

/-! ## Frame lemmas for the event page's operations -/

@[simp] theorem urt_renderCount (s : DocState) :
    (updateRemainingTranslations s).renderCount = s.renderCount := by
  unfold updateRemainingTranslations
  split
  · rfl
  · split <;> rfl

@[simp] theorem urt_fetchCount (s : DocState) :
    (updateRemainingTranslations s).fetchCount = s.fetchCount := by
  unfold updateRemainingTranslations
  split
  · rfl
  · split <;> rfl

@[simp] theorem urt_eventData (s : DocState) :
    (updateRemainingTranslations s).eventData = s.eventData := by
  unfold updateRemainingTranslations
  split
  · rfl
  · split <;> rfl

@[simp] theorem urt_currentLang (s : DocState) :
    (updateRemainingTranslations s).currentLang = s.currentLang := by
  unfold updateRemainingTranslations
  split
  · rfl
  · split <;> rfl

@[simp] theorem urt_updaterCount (s : DocState) :
    (updateRemainingTranslations s).updaterCount = s.updaterCount := by
  unfold updateRemainingTranslations
  split
  · rfl
  · split <;> rfl

@[simp] theorem urt_translations (s : DocState) :
    (updateRemainingTranslations s).translations = s.translations := by
  unfold updateRemainingTranslations
  split
  · rfl
  · split <;> rfl

@[simp] theorem urt_tsTranslations (s : DocState) :
    (updateRemainingTranslations s).tsTranslations = s.tsTranslations := by
  unfold updateRemainingTranslations
  split
  · rfl
  · split <;> rfl

@[simp] theorem urt_dispatchCount (s : DocState) :
    (updateRemainingTranslations s).dispatchCount = s.dispatchCount := by
  unfold updateRemainingTranslations
  split
  · rfl
  · split <;> rfl

@[simp] theorem urt_storedLang (s : DocState) :
    (updateRemainingTranslations s).storedLang = s.storedLang := by
  unfold updateRemainingTranslations
  split
  · rfl
  · split <;> rfl

@[simp] theorem urt_tsCurrentLanguage (s : DocState) :
    (updateRemainingTranslations s).tsCurrentLanguage = s.tsCurrentLanguage := by
  unfold updateRemainingTranslations
  split
  · rfl
  · split <;> rfl

@[simp] theorem renderPage_renderCount (s : DocState) :
    (renderPage s).renderCount = s.renderCount + 1 := by
  simp [renderPage]

@[simp] theorem renderPage_fetchCount (s : DocState) :
    (renderPage s).fetchCount = s.fetchCount := by
  simp [renderPage]

@[simp] theorem renderPage_eventData (s : DocState) :
    (renderPage s).eventData = s.eventData := by
  simp [renderPage]

@[simp] theorem renderPage_currentLang (s : DocState) :
    (renderPage s).currentLang = s.currentLang := by
  simp [renderPage]

@[simp] theorem renderPage_updaterCount (s : DocState) :
    (renderPage s).updaterCount = s.updaterCount := by
  simp [renderPage]

@[simp] theorem renderPage_translations (s : DocState) :
    (renderPage s).translations = s.translations := by
  simp [renderPage]

@[simp] theorem renderPage_tsTranslations (s : DocState) :
    (renderPage s).tsTranslations = s.tsTranslations := by
  simp [renderPage]

@[simp] theorem renderPage_dispatchCount (s : DocState) :
    (renderPage s).dispatchCount = s.dispatchCount := by
  simp [renderPage]

@[simp] theorem renderPage_storedLang (s : DocState) :
    (renderPage s).storedLang = s.storedLang := by
  simp [renderPage]

@[simp] theorem renderPage_tsCurrentLanguage (s : DocState) :
    (renderPage s).tsCurrentLanguage = s.tsCurrentLanguage := by
  simp [renderPage]

@[simp] theorem oUPL_renderCount (s : DocState) :
    (overriddenUpdatePageLanguage s).renderCount = s.renderCount := rfl

@[simp] theorem oUPL_fetchCount (s : DocState) :
    (overriddenUpdatePageLanguage s).fetchCount = s.fetchCount := rfl

@[simp] theorem oUPL_eventData (s : DocState) :
    (overriddenUpdatePageLanguage s).eventData = s.eventData := rfl

@[simp] theorem oUPL_currentLang (s : DocState) :
    (overriddenUpdatePageLanguage s).currentLang = s.currentLang := rfl

@[simp] theorem oUPL_updaterCount (s : DocState) :
    (overriddenUpdatePageLanguage s).updaterCount = s.updaterCount + 1 := rfl

@[simp] theorem oUPL_translations (s : DocState) :
    (overriddenUpdatePageLanguage s).translations = s.translations := rfl

@[simp] theorem oUPL_tsTranslations (s : DocState) :
    (overriddenUpdatePageLanguage s).tsTranslations = s.tsTranslations := rfl

@[simp] theorem oUPL_dispatchCount (s : DocState) :
    (overriddenUpdatePageLanguage s).dispatchCount = s.dispatchCount := rfl

@[simp] theorem oUPL_storedLang (s : DocState) :
    (overriddenUpdatePageLanguage s).storedLang = s.storedLang := rfl

@[simp] theorem oUPL_tsCurrentLanguage (s : DocState) :
    (overriddenUpdatePageLanguage s).tsCurrentLanguage = s.tsCurrentLanguage := rfl

@[simp] theorem oUPL_domI18nContent (s : DocState) :
    (overriddenUpdatePageLanguage s).domI18nContent = s.domI18nContent := rfl

/-! ## Split/join lemmas for the root-path computation -/

theorem splitOnChar_no_sep (sep : Char) (s : List Char) (h : sep ∉ s) :
    splitOnChar sep s = [s] := by
  induction s with
  | nil => rfl
  | cons c cs ih =>
      have hc : ¬ (c = sep) := fun hh => h (hh ▸ List.mem_cons_self c cs)
      have hcs : sep ∉ cs := fun hh => h (List.mem_cons_of_mem c hh)
      simp [splitOnChar, hc, ih hcs]

theorem splitOnChar_append_sep (sep : Char) (s cs : List Char) (h : sep ∉ s) :
    splitOnChar sep (s ++ sep :: cs) = s :: splitOnChar sep cs := by
  induction s with
  | nil => simp [splitOnChar]
  | cons c t ih =>
      have hc : ¬ (c = sep) := fun hh => h (hh ▸ List.mem_cons_self c t)
      have ht : sep ∉ t := fun hh => h (List.mem_cons_of_mem c hh)
      cases hs : splitOnChar sep (t ++ sep :: cs) with
      | nil => exact absurd hs (splitOnChar_ne_nil sep _)
      | cons g gs =>
          have := ih ht
          rw [hs] at this
          cases this
          simp [splitOnChar, hc, hs]

theorem splitOnChar_joinSegs (segs : List (List Char))
    (hne : segs ≠ []) (hs : ∀ x ∈ segs, '/' ∉ x) :
    splitOnChar '/' (joinSegs segs) = segs := by
  induction segs with
  | nil => exact absurd rfl hne
  | cons s t ih =>
      cases t with
      | nil =>
          exact splitOnChar_no_sep '/' s (hs s (List.mem_cons_self s []))
      | cons s2 t2 =>
          show splitOnChar '/' (s ++ '/' :: joinSegs (s2 :: t2)) = _
          rw [splitOnChar_append_sep '/' s _ (hs s (List.mem_cons_self s _))]
          rw [ih (by simp) (fun x hx => hs x (List.mem_cons_of_mem s hx))]

theorem suffix_joinSegs (dirs : List (List Char)) (file : List Char) :
    file <:+ joinSegs (dirs ++ [file]) := by
  induction dirs with
  | nil => exact List.suffix_refl file
  | cons d t ih =>
      show file <:+ joinSegs (d :: (t ++ [file]))
      cases hT : t ++ [file] with
      | nil => simp at hT
      | cons a l =>
          show file <:+ d ++ '/' :: joinSegs (a :: l)
          rw [← hT] at *
          exact (ih.trans (List.suffix_cons '/' _)).trans (List.suffix_append d _)

theorem joinSep_replicate (n : Nat) (h : 1 ≤ n) :
    joinSep "/" (List.replicate n "..") ++ "/" = upSegs n := by
  induction n with
  | zero => omega
  | succ m ih =>
      cases m with
      | zero => rfl
      | succ m2 =>
          show joinSep "/" (List.replicate (m2 + 2) "..") ++ "/" = upSegs (m2 + 2)
          have hrep : List.replicate (m2 + 2) ".." =
              ".." :: ".." :: List.replicate m2 ".." := by
            rw [List.replicate_succ, List.replicate_succ]
          have hjoin : joinSep "/" (List.replicate (m2 + 2) "..") =
              ".." ++ "/" ++ joinSep "/" (List.replicate (m2 + 1) "..") := by
            rw [hrep]
            show ".." ++ "/" ++ joinSep "/" (".." :: List.replicate m2 "..") = _
            rw [List.replicate_succ]
          rw [hjoin, String.append_assoc, String.append_assoc]
          have := ih (by omega)
          rw [this]
          show (".." ++ "/") ++ upSegs (m2 + 1) = "../" ++ upSegs (m2 + 1)
          rfl

/-- `getPathToRoot` on a well-formed root-relative page path: one `".."`
segment per directory, `"./"` at the root. -/
theorem getPathToRoot_joinPath (dirs : List (List Char)) (file : List Char)
    (hd : ∀ d ∈ dirs, d ≠ [] ∧ '/' ∉ d) (hf1 : file ≠ []) (hf2 : '/' ∉ file)
    (hf3 : List.isSuffixOf ".html".data file = true) :
    getPathToRoot (String.mk (joinPath dirs file)) =
      if dirs = [] then "./" else upSegs dirs.length := by
  have hnosep : ∀ x ∈ dirs ++ [file], '/' ∉ x := by
    intro x hx
    rcases List.mem_append.mp hx with hx | hx
    · exact (hd x hx).2
    · rw [List.mem_singleton.mp hx]; exact hf2
  have hsplit : splitString (String.mk (joinPath dirs file)) '/'
      = "" :: (dirs ++ [file]).map String.mk := by
    show ((splitOnChar '/' ('/' :: joinSegs (dirs ++ [file]))).map String.mk) = _
    rw [show splitOnChar '/' ('/' :: joinSegs (dirs ++ [file]))
        = [] :: splitOnChar '/' (joinSegs (dirs ++ [file])) from by simp [splitOnChar]]
    rw [splitOnChar_joinSegs (dirs ++ [file]) (by simp) hnosep]
    rfl
  have hfilter : (("" :: (dirs ++ [file]).map String.mk).filter
        (fun p => decide (0 < p.length)))
      = (dirs ++ [file]).map String.mk := by
    rw [List.filter_cons]
    have : (decide (0 < ("" : String).length)) = false := rfl
    rw [this]
    simp only [Bool.false_eq_true, if_false]
    apply List.filter_eq_self.mpr
    intro a ha
    rcases List.mem_map.mp ha with ⟨d, hdm, hda⟩
    have hdn : d ≠ [] := by
      rcases List.mem_append.mp hdm with hdm | hdm
      · exact (hd d hdm).1
      · rw [List.mem_singleton.mp hdm]; exact hf1
    subst hda
    have : (String.mk d).length = d.length := rfl
    simp [this, List.length_pos, hdn]
  have hsuffix : List.isSuffixOf ".html".data (String.mk (joinPath dirs file)).data
      = true := by
    apply List.isSuffixOf_iff_suffix.mpr
    have h1 : ".html".data <:+ file := List.isSuffixOf_iff_suffix.mp hf3
    have h2 : file <:+ joinSegs (dirs ++ [file]) := suffix_joinSegs dirs file
    exact (h1.trans h2).trans (List.suffix_cons '/' _)
  unfold getPathToRoot
  rw [hsplit, hfilter]
  rw [show (String.mk (joinPath dirs file)).data = joinPath dirs file from rfl] at hsuffix
  rw [hsuffix]
  simp only [if_true, List.length_map, List.length_append, List.length_singleton]
  have hlen : dirs.length + 1 - 1 = dirs.length := by omega
  rw [hlen]
  cases hdirs : dirs with
  | nil => rfl
  | cons a t =>
      have hpos : ¬ ((a :: t : List (List Char)).length = 0) := by simp
      rw [if_neg hpos, if_neg (by simp : ¬ (a :: t : List (List Char)) = [])]
      exact joinSep_replicate _ (by simp)

/-! # Claim theorems -/

/-- Claim C1 (code evaluation at the failing input): on the initialized event
page, the overridden `changeLanguage` with a new supported code runs
`renderPage` TWICE — once directly and once from its own `languageChanged`
dispatch, whose listener re-renders — while the generic updater runs exactly
once and the call reports success.  This contradicts the claim's (and the
code's own comments') single-render-pass guarantee. -/
theorem overridden_changeLanguage_renders_twice :
    (overriddenChangeLanguage eventPageInit "ar").2 = true ∧
    (overriddenChangeLanguage eventPageInit "ar").1.updaterCount = 1 ∧
    (overriddenChangeLanguage eventPageInit "ar").1.renderCount = 2 :=
  ⟨rfl, rfl, rfl⟩

/-- Claim C2 counterexample: the generic system's
`loadAndMergeCommonTranslations` (via `deepMerge`) lets an incoming common
leaf value overwrite the already-present page-specific value at
`common.save`. -/
theorem deepMerge_overwrites_page_value :
    pathFind ["common", "save"]
        (Json.obj [("common", Json.obj [("save", Json.str "Page")])])
      = some (Json.str "Page") ∧
    pathFind ["common", "save"]
        (Json.obj (tsMergeCommon [("common", Json.obj [("save", Json.str "Page")])]
          [("save", Json.str "Common")]))
      = some (Json.str "Common") ∧
    ¬ pathFind ["common", "save"]
        (Json.obj (tsMergeCommon [("common", Json.obj [("save", Json.str "Page")])]
          [("save", Json.str "Common")]))
      = some (Json.str "Page") := by
  have h2 : tsMergeCommon [("common", Json.obj [("save", Json.str "Page")])]
      [("save", Json.str "Common")]
      = [("common", Json.obj [("save", Json.str "Common")])] := by
    simp [tsMergeCommon, lookupKey, dmObj, setKey]
  refine ⟨rfl, ?_, ?_⟩
  · rw [h2]; rfl
  · rw [h2]; simp [pathFind, lookupKey]

/-- Claim C2 (amended): the event-documentation page's merge of common
translations retains every page-specific value below `<lang>.common`, for any
sequence of fetch outcomes; the generic `TranslationSystem` merge instead
lets an incoming common (non-object) leaf replace whatever page-specific
value sits at the same key. -/
theorem merge_precedence_amended :
    (∀ (tr : Json) (env : String → FetchResult) (ls : List String)
       (lang k : String) (rest : List String) (w : Json),
       pathFind (lang :: "common" :: k :: rest) tr = some w →
       pathFind (lang :: "common" :: k :: rest) (mergeAllCommon tr env ls) = some w) ∧
    (∀ (tgt : List (String × Json)) (k s : String),
       lookupKey (dmObj tgt [(k, Json.str s)]) k = some (Json.str s)) := by
  constructor
  · intro tr env ls lang k rest w h
    exact pathFind_mergeAllCommon env ls tr lang k rest w h
  · intro tgt k s
    have hstep : dmObj tgt [(k, Json.str s)] = setKey tgt k (Json.str s) := by
      cases hlk : lookupKey tgt k with
      | none => simp [dmObj, hlk]
      | some v => cases v <;> simp [dmObj, hlk]
    rw [hstep, lookupKey_setKey_self]

/-- Witness for the amended C2 theorem at concrete inputs: a page-specific
`ar.common.save` survives merging a common file that also defines `save`,
across the whole three-language loop. -/
theorem merge_precedence_amended_witness :
    pathFind ["ar", "common", "save"]
        (Json.obj [("ar", Json.obj [("common", Json.obj [("save", Json.str "Page")])])])
      = some (Json.str "Page") ∧
    pathFind ["ar", "common", "save"]
        (mergeAllCommon
          (Json.obj [("ar", Json.obj [("common", Json.obj [("save", Json.str "Page")])])])
          (fun _ => FetchResult.ok
            (Json.obj [("common", Json.obj [("save", Json.str "Common")])]))
          langCodes)
      = some (Json.str "Page") ∧
    lookupKey (dmObj [("save", Json.str "Page")] [("save", Json.str "Common")]) "save"
      = some (Json.str "Common") :=
  ⟨rfl, merge_precedence_amended.1 _ _ _ _ _ _ _ rfl,
    merge_precedence_amended.2 [("save", Json.str "Page")] "save" "Common"⟩

/-- Claim C4 counterexample: the per-field contract is "defined and
non-empty" by the claim, but the code uses any defined non-`null` value — an
empty-string translation is rendered instead of the dataset literal. -/
theorem empty_translation_is_used :
    (renderCasualtiesEntry emptyLabelStore "ar" 0 demoItem).1 = Json.str "" ∧
    jsField demoItem "label" = Json.str "Children" ∧
    ¬ (renderCasualtiesEntry emptyLabelStore "ar" 0 demoItem).1
      = jsField demoItem "label" := by
  refine ⟨rfl, rfl, ?_⟩
  have he : (renderCasualtiesEntry emptyLabelStore "ar" 0 demoItem).1 = Json.str "" := rfl
  rw [he]
  simp [jsField, demoItem, jsIndex, lookupKey]

/-- Claim C4 (amended): rendering a casualties-breakdown field uses the
dataset's literal value exactly when the indexed dot-path is absent from the
active language's dictionary, and uses the resolved translation whenever it
is defined and non-`null` (an empty string included) under a non-default
active language; the two fields resolve independently, so partially
translated items render mixed content. -/
theorem render_field_fallback_amended (tr : Json) (lang : String) (i : Nat) (item : Json) :
    (pathFind (splitString (casualtiesLabelPath i) '.') (langDictOf tr lang) = none →
       (renderCasualtiesEntry tr lang i item).1 = jsField item "label") ∧
    (∀ w, jsTruthy tr = true → lang ≠ "" → lang ≠ "en" →
       pathFind (splitString (casualtiesLabelPath i) '.') (langDictOf tr lang) = some w →
       w ≠ Json.null →
       (renderCasualtiesEntry tr lang i item).1 = w) ∧
    (pathFind (splitString (casualtiesDetailPath i) '.') (langDictOf tr lang) = none →
       (renderCasualtiesEntry tr lang i item).2 = jsField item "detail") ∧
    (∀ w, jsTruthy tr = true → lang ≠ "" → lang ≠ "en" →
       pathFind (splitString (casualtiesDetailPath i) '.') (langDictOf tr lang) = some w →
       w ≠ Json.null →
       (renderCasualtiesEntry tr lang i item).2 = w) := by
  refine ⟨?_, ?_, ?_, ?_⟩
  · intro h
    exact getTranslatedContent_absent _ _ _ _ h
  · intro w h1 h2 h3 h4 h5
    exact getTranslatedContent_present _ _ _ _ _ h1 h2 h3 h4 h5
  · intro h
    exact getTranslatedContent_absent _ _ _ _ h
  · intro w h1 h2 h3 h4 h5
    exact getTranslatedContent_present _ _ _ _ _ h1 h2 h3 h4 h5

/-- Witness for the amended C4 theorem: under Arabic, item 0's label is
translated while its untranslated detail falls back to the dataset literal —
mixed content in one item. -/
theorem render_field_fallback_amended_witness :
    jsTruthy demoStore = true ∧
    pathFind (splitString (casualtiesLabelPath 0) '.') (langDictOf demoStore "ar")
      = some (Json.str "أطفال") ∧
    pathFind (splitString (casualtiesDetailPath 0) '.') (langDictOf demoStore "ar")
      = none ∧
    (renderCasualtiesEntry demoStore "ar" 0 demoItem).1 = Json.str "أطفال" ∧
    (renderCasualtiesEntry demoStore "ar" 0 demoItem).2 = jsField demoItem "detail" := by
  refine ⟨rfl, rfl, rfl, ?_, ?_⟩
  · exact (render_field_fallback_amended demoStore "ar" 0 demoItem).2.1
      (Json.str "أطفال") rfl (by decide) (by decide) rfl
      (fun h => Json.noConfusion h)
  · exact (render_field_fallback_amended demoStore "ar" 0 demoItem).2.2.1 rfl

/-- Claim C5 counterexample: calling the overridden `changeLanguage` with the
already-active code is not a no-op — it still performs two render passes. -/
theorem overridden_changeLanguage_not_noop :
    eventPageInit.currentLang = "en" ∧
    eventPageInit.renderCount = 0 ∧
    (overriddenChangeLanguage eventPageInit "en").1.renderCount = 2 :=
  ⟨rfl, rfl, rfl⟩

/-- Claim C5 (amended): the base `TranslationSystem.changeLanguage` is an
idempotent no-op for the already-active supported code — it returns `true`
with the state (hence fetch, render and update counters) unchanged, under
every loader behaviour; the overridden page `changeLanguage` performs zero
fetches but unconditionally re-renders (two passes) even for the active
code. -/
theorem changeLanguage_idempotence_amended :
    (∀ (loader : TsState → String → TsState × Bool) (s : TsState) (lang : String),
       (languages lang).isSome = true → s.currentLanguage = lang →
       tsChangeLanguage loader s lang = (s, true)) ∧
    (∀ s : DocState, s.eventData.isSome = true →
       (overriddenChangeLanguage s s.currentLang).2 = true ∧
       (overriddenChangeLanguage s s.currentLang).1.fetchCount = s.fetchCount ∧
       (overriddenChangeLanguage s s.currentLang).1.renderCount = s.renderCount + 2) := by
  constructor
  · intro loader s lang hsupp hcur
    cases hl : languages lang with
    | none => rw [hl] at hsupp; simp at hsupp
    | some info => simp [tsChangeLanguage, hl, hcur]
  · intro s hd
    cases he : s.eventData with
    | none => rw [he] at hd; simp at hd
    | some dat =>
        refine ⟨?_, ?_, ?_⟩ <;>
          simp [overriddenChangeLanguage, languageChangedListener, he]

/-- Witness for the amended C5 theorem at concrete states. -/
theorem changeLanguage_idempotence_amended_witness :
    (languages "en").isSome = true ∧
    tsStateInit.currentLanguage = "en" ∧
    tsChangeLanguage (fun s _ => (s, true)) tsStateInit "en" = (tsStateInit, true) ∧
    eventPageInit.eventData.isSome = true ∧
    (overriddenChangeLanguage eventPageInit eventPageInit.currentLang).1.renderCount
      = eventPageInit.renderCount + 2 := by
  refine ⟨rfl, rfl, ?_, rfl, ?_⟩
  · exact changeLanguage_idempotence_amended.1 (fun s _ => (s, true)) tsStateInit "en" rfl rfl
  · exact (changeLanguage_idempotence_amended.2 eventPageInit rfl).2.2

/-- Claim C6 counterexample: the overridden page `changeLanguage` accepts the
unsupported code `"xx"` — it reports success, activates it and persists it,
instead of rejecting and leaving state unchanged. -/
theorem overridden_accepts_unsupported :
    (languages "xx").isNone = true ∧
    (overriddenChangeLanguage eventPageInit "xx").2 = true ∧
    (overriddenChangeLanguage eventPageInit "xx").1.currentLang = "xx" ∧
    (overriddenChangeLanguage eventPageInit "xx").1.storedLang = some "xx" ∧
    eventPageInit.storedLang = some "en" :=
  ⟨rfl, rfl, rfl, rfl, rfl⟩

/-- Claim C6 (amended): the base `TranslationSystem.changeLanguage` rejects
every unsupported code at the boundary — `false` is returned and the state is
fully retained, under every loader behaviour; the overridden page
`changeLanguage` performs no validation and accepts any code, activating and
persisting it and reporting success. -/
theorem unsupported_language_amended :
    (∀ (loader : TsState → String → TsState × Bool) (s : TsState) (lang : String),
       (languages lang).isNone = true → tsChangeLanguage loader s lang = (s, false)) ∧
    (∀ (s : DocState) (lang : String),
       (overriddenChangeLanguage s lang).2 = true ∧
       (overriddenChangeLanguage s lang).1.currentLang = lang ∧
       (overriddenChangeLanguage s lang).1.tsCurrentLanguage = lang ∧
       (overriddenChangeLanguage s lang).1.storedLang = some lang) := by
  constructor
  · intro loader s lang h
    unfold tsChangeLanguage
    rw [if_pos h]
  · intro s lang
    cases he : s.eventData with
    | none =>
        refine ⟨?_, ?_, ?_, ?_⟩ <;>
          simp [overriddenChangeLanguage, languageChangedListener, he]
    | some dat =>
        refine ⟨?_, ?_, ?_, ?_⟩ <;>
          simp [overriddenChangeLanguage, languageChangedListener, he]

/-- Witness for the amended C6 theorem at concrete states. -/
theorem unsupported_language_amended_witness :
    (languages "xx").isNone = true ∧
    tsChangeLanguage (fun s _ => (s, true)) tsStateInit "xx" = (tsStateInit, false) ∧
    (overriddenChangeLanguage eventPageInit "de").1.storedLang = some "de" := by
  refine ⟨rfl, ?_, ?_⟩
  · exact unsupported_language_amended.1 (fun s _ => (s, true)) tsStateInit "xx" rfl
  · exact (unsupported_language_amended.2 eventPageInit "de").2.2.2

/-- Claim C7: with the dataset fetch successful, the event page's load
pipeline renders exactly once no matter how the page-specific and common
translation fetches end (network error, bad status, malformed content, or
any body) — loading is never aborted; and when every translation fetch
fails, the published store is the empty dictionary, so every field of every
section resolves to its dataset default. -/
theorem translation_fetch_failure_tolerated (dat : Json) (transRes : FetchResult)
    (commonRes : String → FetchResult) (s : DocState) :
    ((loadEventData (FetchResult.ok dat) transRes commonRes s).renderCount
      = s.renderCount + 1) ∧
    (transRes.isFailure = true → (∀ l, (commonRes l).isFailure = true) →
      (loadEventData (FetchResult.ok dat) transRes commonRes s).translations
        = Json.obj [] ∧
      (∀ (p : String) (d : Json),
        getTranslatedContent
          (loadEventData (FetchResult.ok dat) transRes commonRes s).translations
          ((loadEventData (FetchResult.ok dat) transRes commonRes s).currentLang) p d
          = d)) := by
  constructor
  · simp [loadEventData]
  · intro hT hC
    have hmerge := mergeAllCommon_failures commonRes langCodes (Json.obj []) hC
    have htrans : (loadEventData (FetchResult.ok dat) transRes commonRes s).translations
        = Json.obj [] := by
      cases transRes with
      | ok t => simp [FetchResult.isFailure] at hT
      | networkError => simp [loadEventData, hmerge]
      | httpError n => simp [loadEventData, hmerge]
      | malformed => simp [loadEventData, hmerge]
    exact ⟨htrans, fun p d => by rw [htrans]; exact getTranslatedContent_empty _ p d⟩

/-- Witness for C7: page-specific fetch hits a network error and every
common fetch returns HTTP 404; the page still renders once, with an empty
store. -/
theorem translation_fetch_failure_tolerated_witness :
    FetchResult.isFailure FetchResult.networkError = true ∧
    (∀ l : String, FetchResult.isFailure ((fun _ => FetchResult.httpError 404) l) = true) ∧
    (loadEventData (FetchResult.ok (Json.obj [])) FetchResult.networkError
        (fun _ => FetchResult.httpError 404) eventPageInit).renderCount
      = eventPageInit.renderCount + 1 ∧
    (loadEventData (FetchResult.ok (Json.obj [])) FetchResult.networkError
        (fun _ => FetchResult.httpError 404) eventPageInit).translations
      = Json.obj [] := by
  refine ⟨rfl, fun l => rfl, ?_, ?_⟩
  · exact (translation_fetch_failure_tolerated (Json.obj []) FetchResult.networkError
      (fun _ => FetchResult.httpError 404) eventPageInit).1
  · exact ((translation_fetch_failure_tolerated (Json.obj []) FetchResult.networkError
      (fun _ => FetchResult.httpError 404) eventPageInit).2 rfl (fun l => rfl)).1

/-- Claim C8 counterexample: the claim's depth-2 example `/section/page.html`
yields `"../"` in the code (one directory above the file), not `"../../"`. -/
theorem getPathToRoot_depth_example :
    getPathToRoot "/section/page.html" = "../" ∧
    ¬ getPathToRoot "/section/page.html" = "../../" := by
  constructor
  · rfl
  · intro h
    have : getPathToRoot "/section/page.html" = "../" := rfl
    rw [this] at h
    exact absurd h (by decide)

/-- Claim C8 (amended): the root-path computation emits one `"../"` per path
segment excluding the trailing `.html` filename — `"./"` for a root-level
page, `"../"` for `/section/page.html` (one directory), `"../../"` for a page
two directories deep — and the footer's variant agrees with it whenever the
base path is `"/"`. -/
theorem getPathToRoot_amended :
    (∀ (dirs : List (List Char)) (file : List Char),
       (∀ d ∈ dirs, d ≠ [] ∧ '/' ∉ d) → file ≠ [] → '/' ∉ file →
       List.isSuffixOf ".html".data file = true →
       getPathToRoot (String.mk (joinPath dirs file)) =
         if dirs = [] then "./" else upSegs dirs.length) ∧
    (∀ p : String, footerGetPathToRoot "/" p = getPathToRoot p) ∧
    getPathToRoot "/page.html" = "./" ∧
    getPathToRoot "/section/page.html" = upSegs 1 ∧
    getPathToRoot "/section/sub/page.html" = upSegs 2 := by
  refine ⟨getPathToRoot_joinPath, ?_, ?_, ?_, ?_⟩
  · intro p
    simp [footerGetPathToRoot, getPathToRoot]
  · rfl
  · rfl
  · rfl

/-- Witness for the amended C8 theorem at a concrete depth-1 path. -/
theorem getPathToRoot_amended_witness :
    ((∀ d ∈ [['s']], d ≠ ([] : List Char) ∧ '/' ∉ d) ∧
      "p.html".data ≠ [] ∧ '/' ∉ "p.html".data ∧
      List.isSuffixOf ".html".data "p.html".data = true) ∧
    getPathToRoot (String.mk (joinPath [['s']] "p.html".data))
      = (if ([['s']] : List (List Char)) = [] then "./" else upSegs 1) := by
  refine ⟨⟨by decide, by decide, by decide, by decide⟩, ?_⟩
  exact getPathToRoot_amended.1 [['s']] "p.html".data
    (by decide) (by decide) (by decide) (by decide)

/-- Claim C9: under the default language `en`, the page renderer's
`getTranslatedContent` returns the caller's default unconditionally — English
page-specific overrides in the loaded store are never applied. -/
theorem getTranslatedContent_english_ignores_store (tr : Json) (p : String) (d : Json) :
    getTranslatedContent tr "en" p d = d := by
  unfold getTranslatedContent
  rw [if_pos (Or.inr (Or.inr rfl))]

/-- Claim C10: after the override, every invocation of the generic updater
`TranslationSystem.updatePageLanguage` sets only the document's `lang` and
`dir` attributes and the body's `rtl` class (from the page's `currentLang`
with `'ltr'` for unknown codes); the `data-i18n` element contents, both
translation stores, the language variables, the persisted preference, the
dataset and the render/fetch/dispatch instrumentation are all left
unchanged. -/
theorem overridden_updatePageLanguage_frame (s : DocState) :
    (overriddenUpdatePageLanguage s).translations = s.translations ∧
    (overriddenUpdatePageLanguage s).tsTranslations = s.tsTranslations ∧
    (overriddenUpdatePageLanguage s).domI18nContent = s.domI18nContent ∧
    (overriddenUpdatePageLanguage s).currentLang = s.currentLang ∧
    (overriddenUpdatePageLanguage s).tsCurrentLanguage = s.tsCurrentLanguage ∧
    (overriddenUpdatePageLanguage s).storedLang = s.storedLang ∧
    (overriddenUpdatePageLanguage s).eventData = s.eventData ∧
    (overriddenUpdatePageLanguage s).renderCount = s.renderCount ∧
    (overriddenUpdatePageLanguage s).fetchCount = s.fetchCount ∧
    (overriddenUpdatePageLanguage s).dispatchCount = s.dispatchCount ∧
    (overriddenUpdatePageLanguage s).docLang = s.currentLang ∧
    (overriddenUpdatePageLanguage s).docDir =
      (match languages s.currentLang with
       | some info => info.dir
       | none => "ltr") ∧
    (overriddenUpdatePageLanguage s).bodyRtl =
      decide ((match languages s.currentLang with
        | some info => info.dir
        | none => "ltr") = "rtl") :=
  ⟨rfl, rfl, rfl, rfl, rfl, rfl, rfl, rfl, rfl, rfl, rfl, rfl, rfl⟩
